import Mathlib

/-!
Shallow embedding of the websocketpp hybi13 processor
(src/websocketpp/processors/hybi13.hpp) and verification of its
specification claims.

Bytes are modelled as `Nat` (all byte values produced by the embedding stay
below 256 where it matters; bit extraction uses explicit masking with `&&&`,
mirroring the C++ bit operations).  Helper functions that live in headers
outside this tree (frame.hpp, utf8_validator.hpp, close.hpp) are modelled
from the specification and marked as such in their doc comments; everything
else is translated directly from hybi13.hpp.
-/

namespace WsHybi13

/-- Processor states, hybi13.hpp lines 849-856. -/
inductive PState
  | HEADER_BASIC
  | HEADER_EXTENDED
  | EXTENSION
  | APPLICATION
  | READY
  | FATAL_ERROR
deriving DecidableEq

/-- Error codes surfaced by the processor (the `error` enumeration of
processors/processor.hpp, restricted to the values referenced from
hybi13.hpp). -/
inductive PErr
  | generic
  | invalid_opcode
  | invalid_rsv_bit
  | fragmented_control
  | invalid_continuation
  | masking_required
  | masking_forbidden
  | non_minimal_encoding
  | requires_64bit
  | control_too_big
  | invalid_utf8
  | invalid_arguments
  | invalid_payload
  | reserved_close_code
  | invalid_close_code
  | reason_requires_code
  | invalid_http_method
  | invalid_http_version
  | missing_required_header
deriving DecidableEq

/-- Modelled from the spec (basic header bit layout, spec sections 3 and 6;
frame.hpp is not part of this tree): FIN is bit 7 of the first header
byte. -/
def get_fin (b0 : Nat) : Bool := decide (b0 &&& 128 ≠ 0)

/-- Modelled from the spec: RSV1 is bit 6 of the first header byte. -/
def get_rsv1 (b0 : Nat) : Bool := decide (b0 &&& 64 ≠ 0)

/-- Modelled from the spec: RSV2 is bit 5 of the first header byte. -/
def get_rsv2 (b0 : Nat) : Bool := decide (b0 &&& 32 ≠ 0)

/-- Modelled from the spec: RSV3 is bit 4 of the first header byte. -/
def get_rsv3 (b0 : Nat) : Bool := decide (b0 &&& 16 ≠ 0)

/-- Modelled from the spec: the opcode is the low 4 bits of the first
header byte. -/
def get_opcode (b0 : Nat) : Nat := b0 &&& 15

/-- Modelled from the spec: MASK is bit 7 of the second header byte. -/
def get_masked (b1 : Nat) : Bool := decide (b1 &&& 128 ≠ 0)

/-- Modelled from the spec: the 7-bit length code is the low 7 bits of the
second header byte. -/
def get_basic_size (b1 : Nat) : Nat := b1 &&& 127

/-- Control frame payload limit, frame.hpp `limits::payload_size_basic`
(spec: control frame payload length at most 125). -/
def payload_size_basic : Nat := 125

/-- Largest payload expressible with the 16-bit extension, frame.hpp
`limits::payload_size_extended`. -/
def payload_size_extended : Nat := 65535

/-- Modelled from the spec: opcodes 8-15 are control opcodes
(CLOSE, PING, PONG and the control-reserved range 11-15). -/
def opcode_is_control (op : Nat) : Bool := decide (8 ≤ op)

/-- Modelled from the spec: opcodes 3-7 and 11-15 are reserved. -/
def opcode_reserved (op : Nat) : Bool :=
  decide ((3 ≤ op ∧ op ≤ 7) ∨ (11 ≤ op ∧ op ≤ 15))

/-- Modelled from the spec: opcode values above 0xF are invalid (a 4-bit
extraction never produces one). -/
def opcode_invalid (op : Nat) : Bool := decide (15 < op)

/-- Modelled from the spec: total header length derived from the basic
header — 2 basic bytes, plus 2 or 8 length-extension bytes when the length
code is 126 or 127, plus 4 masking-key bytes when MASK is set. -/
def get_header_len (b1 : Nat) : Nat :=
  (if get_basic_size b1 = 126 then 4 else if get_basic_size b1 = 127 then 10 else 2)
    + (if get_masked b1 then 4 else 0)

/-- Big-endian (network order) value of a byte list. -/
def bytesBE (l : List Nat) : Nat := l.foldl (fun a b => a * 256 + b) 0

/-- Modelled from the spec: the payload size is the 7-bit code when at most
125, else the 16-bit or 64-bit network-order extension value. -/
def get_payload_size (b1 : Nat) (ext : List Nat) : Nat :=
  if get_basic_size b1 ≤ 125 then get_basic_size b1
  else if get_basic_size b1 = 126 then bytesBE (ext.take 2)
  else bytesBE (ext.take 8)

/-- Modelled from the spec: offset of the masking key inside the extended
header (after the 2- or 8-byte length extension, if any). -/
def masking_key_offset (b1 : Nat) : Nat :=
  if get_basic_size b1 = 126 then 2 else if get_basic_size b1 = 127 then 8 else 0

/-- Modelled from the spec: the 4 masking-key bytes from the extended
header when MASK is set, a zero key otherwise. -/
def get_masking_key (b1 : Nat) (ext : List Nat) : List Nat :=
  if get_masked b1 then
    [ext.getD (masking_key_offset b1) 0, ext.getD (masking_key_offset b1 + 1) 0,
     ext.getD (masking_key_offset b1 + 2) 0, ext.getD (masking_key_offset b1 + 3) 0]
  else [0, 0, 0, 0]

/-- Modelled from the spec (section 4.3 Masking Engine): a prepared masking
key carries the 4 key bytes and the rotation phase reached so far. -/
structure MaskKey where
  key : List Nat
  phase : Nat
deriving DecidableEq

/-- Modelled from the spec: preparing a masking key starts the rotation at
phase 0. -/
def prepare_masking_key (k : List Nat) : MaskKey := ⟨k, 0⟩

/-- Modelled from the spec: `frame::word_mask_circ` — XOR each byte with the
key byte at the current rotation phase, advancing the phase by the number
of bytes masked so a later call resumes at the correct rotation. -/
def word_mask_circ (mk : MaskKey) (bs : List Nat) : List Nat × MaskKey :=
  (bs.enum.map (fun p => p.2 ^^^ mk.key.getD ((mk.phase + p.1) % 4) 0),
   ⟨mk.key, mk.phase + bs.length⟩)

/-- Modelled from the spec: states of the incremental UTF-8 validator
(utf8_validator.hpp) — the number of continuation bytes still expected,
with the restricted-range states after lead bytes E0, ED, F0, F4, and an
absorbing reject state. -/
inductive Utf8S
  | ok0
  | more1
  | more2
  | more3
  | afterE0
  | afterED
  | afterF0
  | afterF4
  | bad
deriving DecidableEq

/-- Modelled from the spec: one byte of incremental UTF-8 validation. -/
def utf8_step (s : Utf8S) (b : Nat) : Utf8S :=
  match s with
  | .ok0 =>
    if b ≤ 127 then .ok0
    else if 194 ≤ b ∧ b ≤ 223 then .more1
    else if b = 224 then .afterE0
    else if (225 ≤ b ∧ b ≤ 236) ∨ b = 238 ∨ b = 239 then .more2
    else if b = 237 then .afterED
    else if b = 240 then .afterF0
    else if 241 ≤ b ∧ b ≤ 243 then .more3
    else if b = 244 then .afterF4
    else .bad
  | .more1 => if 128 ≤ b ∧ b ≤ 191 then .ok0 else .bad
  | .more2 => if 128 ≤ b ∧ b ≤ 191 then .more1 else .bad
  | .more3 => if 128 ≤ b ∧ b ≤ 191 then .more2 else .bad
  | .afterE0 => if 160 ≤ b ∧ b ≤ 191 then .more1 else .bad
  | .afterED => if 128 ≤ b ∧ b ≤ 159 then .more1 else .bad
  | .afterF0 => if 144 ≤ b ∧ b ≤ 191 then .more2 else .bad
  | .afterF4 => if 128 ≤ b ∧ b ≤ 143 then .more2 else .bad
  | .bad => .bad

/-- Modelled from the spec: feeding a byte span to the validator folds the
step function over the bytes, keeping multi-byte state across calls. -/
def utf8_decode (s : Utf8S) (bs : List Nat) : Utf8S := bs.foldl utf8_step s

/-- Modelled from the spec: the validator is complete when no multi-byte
sequence is pending. -/
def utf8_complete (s : Utf8S) : Bool := decide (s = Utf8S.ok0)

/-- A decoded message: the opcode it was created with and its accumulated
payload bytes (the message buffer provided by the external message
manager). -/
structure Message where
  opcode : Nat
  payload : List Nat
deriving DecidableEq

/-- Frame metadata, hybi13.hpp lines 861-871: the message buffer, the
prepared masking key, and the UTF-8 validation state. -/
structure MsgMetadata where
  msg : Option Message
  prepared_key : MaskKey
  validator : Utf8S
deriving DecidableEq

/-- A default-constructed msg_metadata: no message attached, key and
validator in their initial states. -/
def MsgMetadata.empty : MsgMetadata := ⟨none, ⟨[0, 0, 0, 0], 0⟩, .ok0⟩

/-- Which of the two metadata slots `m_current_msg` points at. -/
inductive Sel
  | sdata
  | scontrol
deriving DecidableEq

/-- State of a hybi13 processor instance, hybi13.hpp lines 873-908.  The
extended-header buffer is modelled as the list of bytes written since the
cursor was last reset (the C++ buffer is zero-filled and only the bytes
below the cursor are ever read back, so the models agree); the external
streaming decompressor's state is modelled extensionally by the history of
bytes fed to it. -/
structure Hybi13 where
  m_state : PState
  m_bytes_needed : Nat
  m_cursor : Nat
  b0 : Nat
  b1 : Nat
  m_extended : List Nat
  m_data_msg : MsgMetadata
  m_control_msg : MsgMetadata
  m_current : Sel
  m_server : Bool
  m_pmc_enabled : Bool
  m_decomp_hist : List Nat
deriving DecidableEq

/-- The metadata slot `m_current_msg` points at. -/
def Hybi13.current_md (st : Hybi13) : MsgMetadata :=
  match st.m_current with
  | .sdata => st.m_data_msg
  | .scontrol => st.m_control_msg

/-- Writing through the `m_current_msg` pointer. -/
def Hybi13.set_current_md (st : Hybi13) (md : MsgMetadata) : Hybi13 :=
  match st.m_current with
  | .sdata => { st with m_data_msg := md }
  | .scontrol => { st with m_control_msg := md }

/-- hybi13.hpp lines 366-378: reset headers for a new frame.  The C++ code
zero-fills the extended-header buffer; in the list model this is the empty
list (unwritten positions read as zero). -/
def reset_headers (st : Hybi13) : Hybi13 :=
  { st with m_state := .HEADER_BASIC, m_bytes_needed := 2,
            b0 := 0, b1 := 0, m_extended := [] }

/-- A freshly constructed processor (hybi13.hpp lines 73-78: the
constructor calls reset_headers; both metadata slots are default
constructed; `m_current_msg` is uninitialized in C++ and is given the
data slot here — it is never read before being assigned). -/
def Hybi13.init (server pmc : Bool) : Hybi13 :=
  reset_headers
    { m_state := .HEADER_BASIC, m_bytes_needed := 2, m_cursor := 0,
      b0 := 0, b1 := 0, m_extended := [],
      m_data_msg := .empty, m_control_msg := .empty, m_current := .sdata,
      m_server := server, m_pmc_enabled := pmc, m_decomp_hist := [] }

/-- hybi13.hpp lines 381-383. -/
def ready (st : Hybi13) : Bool := decide (st.m_state = PState.READY)

/-- hybi13.hpp lines 404-406. -/
def get_error (st : Hybi13) : Bool := decide (st.m_state = PState.FATAL_ERROR)

/-- hybi13.hpp lines 408-410. -/
def get_bytes_needed (st : Hybi13) : Nat := st.m_bytes_needed

/-- hybi13.hpp lines 671-736: validate an incoming basic header, with the
checks in exactly the source order. -/
def validate_incoming_basic_header (b0 b1 : Nat) (is_server new_msg pmc_enabled : Bool) :
    Option PErr :=
  let op := get_opcode b0
  if opcode_is_control op && decide (payload_size_basic < get_basic_size b1) then
    some .control_too_big
  else if get_rsv1 b0 && (!pmc_enabled || opcode_is_control op) then
    some .invalid_rsv_bit
  else if get_rsv2 b0 || get_rsv3 b0 then
    some .invalid_rsv_bit
  else if opcode_reserved op then
    some .invalid_opcode
  else if opcode_invalid op then
    some .invalid_opcode
  else if opcode_is_control op && !get_fin b0 then
    some .fragmented_control
  else if new_msg && decide (op = 0) then
    some .invalid_continuation
  else if !new_msg && !opcode_is_control op && decide (op ≠ 0) then
    some .invalid_continuation
  else if is_server && !get_masked b1 then
    some .masking_required
  else if !is_server && get_masked b1 then
    some .masking_forbidden
  else
    none

/-- Width of size_t on the modelled (64-bit) platform, used by the
32-bit-overflow check of validate_incoming_extended_header. -/
def size_t_bytes : Nat := 8

/-- hybi13.hpp lines 749-775: validate an incoming extended header. -/
def validate_incoming_extended_header (b1 : Nat) (ext : List Nat) : Option PErr :=
  if get_basic_size b1 = 126 ∧ get_payload_size b1 ext ≤ payload_size_basic then
    some .non_minimal_encoding
  else if get_basic_size b1 = 127 ∧ get_payload_size b1 ext ≤ payload_size_extended then
    some .non_minimal_encoding
  else if size_t_bytes = 4 ∧ get_payload_size b1 ext >>> 32 ≠ 0 then
    some .requires_64bit
  else
    none

/-- hybi13.hpp lines 554-583: read bytes from the input into the basic
header, mirroring the source's branch structure exactly. -/
def copy_basic_header_bytes (st : Hybi13) (rem : List Nat) : Nat × Hybi13 :=
  if rem.length = 0 ∨ st.m_bytes_needed = 0 then (0, st)
  else if 1 < rem.length then
    if st.m_bytes_needed = 2 then
      (2, { st with b0 := rem.getD 0 0, b1 := rem.getD 1 0,
                    m_bytes_needed := st.m_bytes_needed - 2 })
    else
      (1, { st with b1 := rem.getD 0 0, m_bytes_needed := st.m_bytes_needed - 1 })
  else
    if st.m_bytes_needed = 2 then
      (1, { st with b0 := rem.getD 0 0, m_bytes_needed := st.m_bytes_needed - 1 })
    else
      (1, { st with b1 := rem.getD 0 0, m_bytes_needed := st.m_bytes_needed - 1 })

/-- hybi13.hpp lines 586-594: read min(bytes needed, available) bytes into
the extended header at the cursor. -/
def copy_extended_header_bytes (st : Hybi13) (rem : List Nat) : Nat × Hybi13 :=
  let k := min st.m_bytes_needed rem.length
  (k, { st with m_extended := st.m_extended ++ rem.take k,
                m_cursor := st.m_cursor + k,
                m_bytes_needed := st.m_bytes_needed - k })

/-- hybi13.hpp lines 612-656: unmask, optionally decompress, append to the
current message buffer and validate UTF-8 for TEXT messages.  The external
streaming decompressor is modelled extensionally by `f`, which maps the
total input fed so far to the total output produced so far; the bytes a
call appends are the new suffix of `f` applied to the extended history.
On a validation failure the source returns 0 without decrementing
`m_bytes_needed` (the appended bytes and advanced key remain). -/
def process_payload_bytes (f : List Nat → List Nat) (st : Hybi13) (chunk : List Nat) :
    Hybi13 × Nat × Option PErr :=
  let md := st.current_md
  let r := if get_masked st.b1 then word_mask_circ md.prepared_key chunk
           else (chunk, md.prepared_key)
  let data := r.1
  let key1 := r.2
  let msg := md.msg.getD ⟨0, []⟩
  let out0 := msg.payload
  let compressed := st.m_pmc_enabled && get_rsv1 st.b0
  let appended :=
    if compressed then (f (st.m_decomp_hist ++ data)).drop (f st.m_decomp_hist).length
    else data
  let out1 := out0 ++ appended
  let offset := if compressed then out1.length - out0.length else out0.length
  let hist1 := if compressed then st.m_decomp_hist ++ data else st.m_decomp_hist
  let fed := out1.drop offset
  let validator1 := if msg.opcode = 1 then utf8_decode md.validator fed else md.validator
  let okutf : Bool := decide (msg.opcode ≠ 1) || decide (fed = []) || decide (validator1 ≠ .bad)
  let md1 : MsgMetadata := ⟨some { msg with payload := out1 }, key1, validator1⟩
  let st1 := { st.set_current_md md1 with m_decomp_hist := hist1 }
  if okutf then
    ({ st1 with m_bytes_needed := st1.m_bytes_needed - chunk.length }, chunk.length, none)
  else
    (st1, 0, some .invalid_utf8)

/-- hybi13.hpp lines 293-325: on completion of the extended header, enter
APPLICATION with bytes-needed set to the payload size and select or create
the active message (a fresh control message, a fresh data message, or the
open data message with a freshly prepared masking key). -/
def setup_message (st : Hybi13) : Hybi13 :=
  let op := get_opcode st.b0
  let key := get_masking_key st.b1 st.m_extended
  let st1 := { st with m_state := PState.APPLICATION,
                       m_bytes_needed := get_payload_size st.b1 st.m_extended }
  if opcode_is_control op then
    { st1 with m_control_msg := ⟨some ⟨op, []⟩, prepare_masking_key key, .ok0⟩,
               m_current := .scontrol }
  else if st1.m_data_msg.msg.isNone then
    { st1 with m_data_msg := ⟨some ⟨op, []⟩, prepare_masking_key key, .ok0⟩,
               m_current := .sdata }
  else
    { st1 with m_data_msg := { st1.m_data_msg with prepared_key := prepare_masking_key key },
               m_current := .sdata }

/-- hybi13.hpp lines 341-355: when a frame's payload is complete, either
flag the message READY (checking UTF-8 completeness for a final TEXT
frame) or reset the headers to read the next frame. -/
def fin_or_reset (st : Hybi13) : Hybi13 × Option PErr :=
  if get_fin st.b0 then
    if decide (get_opcode st.b0 = 1) && !utf8_complete st.current_md.validator then
      (st, some .invalid_utf8)
    else
      ({ st with m_state := PState.READY }, none)
  else
    (reset_headers st, none)

/-- Result of a consume call: bytes consumed, resulting processor state,
and the surfaced error code (none on success). -/
structure ConsumeOut where
  consumed : Nat
  st : Hybi13
  ec : Option PErr
deriving DecidableEq

/-- Add bytes consumed before a recursive loop step to its result. -/
def bump (c : Nat) (r : ConsumeOut) : ConsumeOut := ⟨c + r.consumed, r.st, r.ec⟩

/-- Outcome of one iteration of the decode loop: return from consume with
the carried bytes and error (a `break` or defensive `return` in the
source), or continue looping after consuming `c` bytes. -/
inductive LoopStep
  | done (out : ConsumeOut)
  | next (c : Nat) (st : Hybi13)
deriving DecidableEq

/-- The loop guard of consume, hybi13.hpp lines 263-264 (negated): the loop
stops once the state is READY or FATAL_ERROR, or all input is consumed
while more bytes are needed. -/
def loop_guard (st : Hybi13) (rem : List Nat) : Prop :=
  st.m_state = PState.READY ∨ st.m_state = PState.FATAL_ERROR ∨
    (rem.length = 0 ∧ st.m_bytes_needed ≠ 0)

instance (st : Hybi13) (rem : List Nat) : Decidable (loop_guard st rem) := by
  unfold loop_guard
  infer_instance

/-- hybi13.hpp lines 278-282: on a valid basic header, extract the full
header size and adjust the consume state to read the extended header. -/
def enter_extended (st : Hybi13) : Hybi13 :=
  { st with m_state := PState.HEADER_EXTENDED, m_cursor := 0, m_extended := [],
            m_bytes_needed := get_header_len st.b1 - 2 }

/-- One iteration of the decode loop body, hybi13.hpp lines 266-360,
branch for branch: read basic-header bytes and validate on completion;
read extended-header bytes, validate, and set up the message; pass through
EXTENSION; feed payload bytes and finish or reset on frame completion.
The READY/FATAL_ERROR arms are the source's defensive final else branch
(unreachable, since the loop guard excludes those states). -/
def loop_iter (f : List Nat → List Nat) (st : Hybi13) (rem : List Nat) : LoopStep :=
  match st.m_state with
  | .HEADER_BASIC =>
    let r := copy_basic_header_bytes st rem
    if 0 < r.2.m_bytes_needed then
      .next r.1 r.2
    else
      match validate_incoming_basic_header r.2.b0 r.2.b1 r.2.m_server
          r.2.m_data_msg.msg.isNone r.2.m_pmc_enabled with
      | some e => .done ⟨r.1, r.2, some e⟩
      | none => .next r.1 (enter_extended r.2)
  | .HEADER_EXTENDED =>
    let r := copy_extended_header_bytes st rem
    if 0 < r.2.m_bytes_needed then
      .next r.1 r.2
    else
      match validate_incoming_extended_header r.2.b1 r.2.m_extended with
      | some e => .done ⟨r.1, r.2, some e⟩
      | none => .next r.1 (setup_message r.2)
  | .EXTENSION => .next 0 { st with m_state := PState.APPLICATION }
  | .APPLICATION =>
    let btp := min st.m_bytes_needed rem.length
    if 0 < btp then
      match process_payload_bytes f st (rem.take btp) with
      | (st1, _, some e) => .done ⟨0, st1, some e⟩
      | (st1, c, none) =>
        if 0 < st1.m_bytes_needed then
          .next c st1
        else
          match fin_or_reset st1 with
          | (_, some e) => .done ⟨c, st1, some e⟩
          | (st2, none) => .next c st2
    else
      match fin_or_reset st with
      | (_, some e) => .done ⟨0, st, some e⟩
      | (st2, none) => .next 0 st2
  | .READY => .done ⟨0, st, some .generic⟩
  | .FATAL_ERROR => .done ⟨0, st, some .generic⟩

/-- The decode loop of consume, hybi13.hpp lines 263-361, with explicit
fuel; each recursive call is one iteration of the while loop. -/
def consume_loop (f : List Nat → List Nat) : Nat → Hybi13 → List Nat → ConsumeOut
  | 0, st, _ => ⟨0, st, none⟩
  | fuel + 1, st, rem =>
    if loop_guard st rem then ⟨0, st, none⟩
    else
      match loop_iter f st rem with
      | .done out => out
      | .next c st1 => bump c (consume_loop f fuel st1 (rem.drop c))

/-- hybi13.hpp lines 254-364: process new connection bytes.  The fuel
`5 * buf.length + 5` dominates the loop measure (proved below), so the
loop always exits through one of its own conditions. -/
def consume (f : List Nat → List Nat) (st : Hybi13) (buf : List Nat) : ConsumeOut :=
  consume_loop f (5 * buf.length + 5) st buf

/-- hybi13.hpp lines 385-401: retrieve the completed message.  Returns the
null pointer and leaves the state untouched unless READY; otherwise
detaches the current message, clears the metadata slot matching its
opcode, and re-arms the decoder.  (With a null current message the C++
code would dereference null; that situation is unreachable from READY and
the model simply skips the opcode dispatch then.) -/
def get_message (st : Hybi13) : Option Message × Hybi13 :=
  if !ready st then (none, st)
  else
    let ret := st.current_md.msg
    let st1 := st.set_current_md { st.current_md with msg := none }
    let st2 :=
      match ret with
      | some m =>
        if opcode_is_control m.opcode then
          { st1 with m_control_msg := { st1.m_control_msg with msg := none } }
        else
          { st1 with m_data_msg := { st1.m_data_msg with msg := none } }
      | none => st1
    (ret, reset_headers st2)

/-- An HTTP-like handshake request as the processor sees it: method,
version, and header lookup by name (the request object model is external;
spec section 6). -/
structure Request where
  method : String
  version : String
  headers : List (String × String)

/-- Header lookup; absent headers read as the empty string. -/
def Request.get_header (r : Request) (k : String) : String :=
  (((r.headers.find? (fun p => p.1 == k)).map Prod.snd).getD "")

/-- hybi13.hpp lines 141-159: validate handshake preconditions in source
order. -/
def validate_handshake (r : Request) : Option PErr :=
  if r.method ≠ "GET" then some .invalid_http_method
  else if r.version ≠ "HTTP/1.1" then some .invalid_http_version
  else if r.get_header "Sec-WebSocket-Key" = "" then some .missing_required_header
  else none

/-- Modelled from the spec (wire format, section 6): the length code
written into the basic header. -/
def length_code (n : Nat) : Nat := if n ≤ 125 then n else if n ≤ 65535 then 126 else 127

/-- Modelled from the spec: the big-endian length-extension bytes. -/
def encode_length_ext (n : Nat) : List Nat :=
  if n ≤ 125 then []
  else if n ≤ 65535 then [n / 256 % 256, n % 256]
  else [n / 256 ^ 7 % 256, n / 256 ^ 6 % 256, n / 256 ^ 5 % 256, n / 256 ^ 4 % 256,
        n / 256 ^ 3 % 256, n / 256 ^ 2 % 256, n / 256 % 256, n % 256]

/-- Modelled from the spec: `frame::prepare_header` — the 2 basic bytes,
the length extension, and the masking key when masked. -/
def prepare_header (op plen : Nat) (fin masked : Bool) (key : List Nat) : List Nat :=
  [(if fin then 128 else 0) + op, (if masked then 128 else 0) + length_code plen]
    ++ encode_length_ext plen ++ (if masked then key else [])

/-- A prepared outgoing frame: the header set on the output message, its
payload buffer, and the prepared flag. -/
structure PreparedFrame where
  header : List Nat
  payload : List Nat
  prepared : Bool
deriving DecidableEq

/-- hybi13.hpp lines 804-847: build a control frame.  `has_out` models
whether the output message pointer is non-null.  A client-role endpoint
masks with the fixed all-zero key the source generates (key.i = 0). -/
def prepare_control (is_server has_out : Bool) (op : Nat) (payload : List Nat) :
    Option PErr × Option PreparedFrame :=
  if !has_out then (some .invalid_arguments, none)
  else if !opcode_is_control op then (some .invalid_opcode, none)
  else if payload_size_basic < payload.length then (some .control_too_big, none)
  else
    let masked := !is_server
    let key : List Nat := [0, 0, 0, 0]
    let o := if masked then (word_mask_circ (prepare_masking_key key) payload).1 else payload
    (none, some ⟨prepare_header op payload.length true masked (if masked then key else []), o, true⟩)

/-- hybi13.hpp lines 517-551: build a close frame.  The close-status
predicates and the no-status sentinel live in close.hpp, which is not part
of this tree; they are modelled from the spec as explicit parameters
(`reservedP` for reserved codes, `invalidP` for otherwise-invalid codes,
`no_status` for the sentinel).  The code is a 16-bit value written in
network byte order ahead of the reason bytes. -/
def prepare_close (reservedP invalidP : Nat → Bool) (no_status : Nat)
    (is_server has_out : Bool) (code : Nat) (reason : List Nat) :
    Option PErr × Option PreparedFrame :=
  if reservedP code then (some .reserved_close_code, none)
  else if invalidP code && decide (code ≠ no_status) then (some .invalid_close_code, none)
  else if decide (code = no_status) && decide (0 < reason.length) then
    (some .reason_requires_code, none)
  else if payload_size_basic - 2 < reason.length then (some .control_too_big, none)
  else
    let payload := if code ≠ no_status then [code / 256 % 256, code % 256] ++ reason else []
    prepare_control is_server has_out 8 payload

/-- Rank of a processor state for the loop termination measure: every loop
iteration either consumes input bytes or strictly decreases this rank
(HEADER_BASIC with a complete header transitions to HEADER_EXTENDED, which
transitions to APPLICATION, which transitions to READY or back to
HEADER_BASIC with 2 bytes needed). -/
def state_rank (st : Hybi13) : Nat :=
  match st.m_state with
  | .HEADER_BASIC => if st.m_bytes_needed = 0 then 4 else 1
  | .HEADER_EXTENDED => 3
  | .EXTENSION => 4
  | .APPLICATION => 2
  | .READY => 0
  | .FATAL_ERROR => 0

/-- Termination measure of the decode loop: bytes remaining (weighted past
the largest rank step) plus the state rank. -/
def loop_measure (st : Hybi13) (rem : List Nat) : Nat := 5 * rem.length + state_rank st

/-! ## Theorems -/

/-- Every state rank is at most 4. -/
theorem state_rank_le (st : Hybi13) : state_rank st ≤ 4 := by
  unfold state_rank
  split <;> first | omega | (split <;> omega)

/-- Facts about copy_basic_header_bytes used by the loop analysis: it
consumes at most the available bytes, preserves the state tag, consumes
nothing exactly when nothing is needed, and consumes at least one byte
when bytes are needed and available. -/
theorem copy_basic_facts (st : Hybi13) (rem : List Nat) :
    (copy_basic_header_bytes st rem).1 ≤ rem.length ∧
    (copy_basic_header_bytes st rem).2.m_state = st.m_state ∧
    (st.m_bytes_needed = 0 → copy_basic_header_bytes st rem = (0, st)) ∧
    (st.m_bytes_needed ≠ 0 → rem.length ≠ 0 → 1 ≤ (copy_basic_header_bytes st rem).1) ∧
    ((copy_basic_header_bytes st rem).1 = 0 → (copy_basic_header_bytes st rem).2 = st) := by
  unfold copy_basic_header_bytes
  by_cases h1 : rem.length = 0 ∨ st.m_bytes_needed = 0
  · simp only [h1, if_true]
    rcases h1 with h1 | h1 <;> simp [h1]
  · push_neg at h1
    by_cases h2 : 1 < rem.length <;> by_cases h3 : st.m_bytes_needed = 2 <;>
      simp [h1, h2, h3] <;> omega

/-- Facts about copy_extended_header_bytes: consumed count, preserved
state tag, and the resulting bytes-needed value. -/
theorem copy_extended_facts (st : Hybi13) (rem : List Nat) :
    (copy_extended_header_bytes st rem).1 = min st.m_bytes_needed rem.length ∧
    (copy_extended_header_bytes st rem).2.m_state = st.m_state ∧
    (copy_extended_header_bytes st rem).2.m_bytes_needed
      = st.m_bytes_needed - min st.m_bytes_needed rem.length := by
  unfold copy_extended_header_bytes
  exact ⟨rfl, rfl, rfl⟩

/-- Facts about process_payload_bytes: the state tag is preserved, a
successful call consumes exactly the chunk, and a failing call consumes
nothing. -/
theorem process_payload_facts (f : List Nat → List Nat) (st : Hybi13) (chunk : List Nat) :
    (process_payload_bytes f st chunk).1.m_state = st.m_state ∧
    ((process_payload_bytes f st chunk).2.2 = none →
      (process_payload_bytes f st chunk).2.1 = chunk.length) ∧
    ((process_payload_bytes f st chunk).2.2 ≠ none →
      (process_payload_bytes f st chunk).2.1 = 0) := by
  unfold process_payload_bytes
  cases hcur : st.m_current <;>
    simp only [Hybi13.set_current_md, Hybi13.current_md, hcur] <;>
    refine ⟨?_, ?_, ?_⟩ <;> (repeat' split) <;> simp_all

/-- Facts about fin_or_reset: on success the resulting state has rank at
most 1 (READY, or HEADER_BASIC with 2 bytes needed). -/
theorem fin_or_reset_facts (st : Hybi13) :
    (fin_or_reset st).2 = none → state_rank (fin_or_reset st).1 ≤ 1 := by
  unfold fin_or_reset
  split
  · split
    · intro h
      simp at h
    · intro _
      simp [state_rank]
  · intro _
    simp [reset_headers, state_rank]

/-- fin_or_reset never produces FATAL_ERROR on success. -/
theorem fin_or_reset_not_fatal (st : Hybi13) :
    (fin_or_reset st).2 = none → (fin_or_reset st).1.m_state ≠ PState.FATAL_ERROR := by
  unfold fin_or_reset
  split
  · split
    · intro h
      simp at h
    · intro _
      simp
  · intro _
    simp [reset_headers]

/-- setup_message always enters APPLICATION. -/
theorem setup_message_state (st : Hybi13) :
    (setup_message st).m_state = PState.APPLICATION := by
  unfold setup_message
  by_cases h1 : opcode_is_control (get_opcode st.b0) = true
  · simp [h1]
  · by_cases h2 : st.m_data_msg.msg.isNone = true <;> simp [h1, h2]

/-- The state rank is 3 exactly on HEADER_EXTENDED states. -/
theorem state_rank_HE (st : Hybi13) (h : st.m_state = PState.HEADER_EXTENDED) :
    state_rank st = 3 := by
  simp [state_rank, h]

/-- The state rank is 2 exactly on APPLICATION states. -/
theorem state_rank_APP (st : Hybi13) (h : st.m_state = PState.APPLICATION) :
    state_rank st = 2 := by
  simp [state_rank, h]

/-- The state rank of HEADER_BASIC with a complete header is 4. -/
theorem state_rank_HB0 (st : Hybi13) (h : st.m_state = PState.HEADER_BASIC)
    (hb : st.m_bytes_needed = 0) : state_rank st = 4 := by
  simp [state_rank, h, hb]

/-- The state rank of HEADER_BASIC with header bytes pending is 1. -/
theorem state_rank_HB1 (st : Hybi13) (h : st.m_state = PState.HEADER_BASIC)
    (hb : st.m_bytes_needed ≠ 0) : state_rank st = 1 := by
  simp [state_rank, h, hb]

/-- The state rank of EXTENSION is 4. -/
theorem state_rank_EXT (st : Hybi13) (h : st.m_state = PState.EXTENSION) :
    state_rank st = 4 := by
  simp [state_rank, h]

/-- A loop iteration that returns from consume carries an error code and
has consumed at most the available bytes. -/
theorem loop_iter_done_facts (f : List Nat → List Nat) (st : Hybi13) (rem : List Nat)
    (out : ConsumeOut) (h : loop_iter f st rem = LoopStep.done out) :
    out.consumed ≤ rem.length ∧ out.ec ≠ none := by
  unfold loop_iter at h
  cases hs : st.m_state <;> rw [hs] at h <;> dsimp only at h
  case HEADER_BASIC =>
    split at h
    · simp at h
    · split at h
      · cases h
        exact ⟨(copy_basic_facts st rem).1, by simp⟩
      · simp at h
  case HEADER_EXTENDED =>
    split at h
    · simp at h
    · split at h
      · cases h
        refine ⟨?_, by simp⟩
        dsimp only
        rw [(copy_extended_facts st rem).1]
        omega
      · simp at h
  case EXTENSION => simp at h
  case APPLICATION =>
    split at h
    · split at h
      next st1 e heq =>
        cases h
        exact ⟨Nat.zero_le _, by simp⟩
      next st1 cp heq =>
        split at h
        · simp at h
        · split at h
          next e heq2 =>
            cases h
            have hpf := process_payload_facts f st
              (rem.take (min st.m_bytes_needed rem.length))
            rw [heq] at hpf
            dsimp only at hpf
            refine ⟨?_, by simp⟩
            dsimp only
            rw [hpf.2.1 rfl, List.length_take]
            omega
          next heq2 => simp at h
    · split at h
      · cases h
        exact ⟨Nat.zero_le _, by simp⟩
      · simp at h
  case READY =>
    cases h
    exact ⟨Nat.zero_le _, by simp⟩
  case FATAL_ERROR =>
    cases h
    exact ⟨Nat.zero_le _, by simp⟩

/-- A loop iteration that continues consumes at most the available bytes,
never enters FATAL_ERROR, and strictly decreases the loop measure. -/
theorem loop_iter_next_facts (f : List Nat → List Nat) (st : Hybi13) (rem : List Nat)
    (c : Nat) (st1 : Hybi13) (hg : ¬ loop_guard st rem)
    (h : loop_iter f st rem = LoopStep.next c st1) :
    c ≤ rem.length ∧ st1.m_state ≠ PState.FATAL_ERROR ∧
      loop_measure st1 (rem.drop c) < loop_measure st rem := by
  unfold loop_guard at hg
  push_neg at hg
  unfold loop_iter at h
  cases hs : st.m_state <;> rw [hs] at h <;> dsimp only at h
  case HEADER_BASIC =>
    have hcb := copy_basic_facts st rem
    split at h
    next hbn =>
      cases h
      have hbne : st.m_bytes_needed ≠ 0 := by
        intro h0
        rw [hcb.2.2.1 h0] at hbn
        dsimp only at hbn
        omega
      have hrem : rem.length ≠ 0 := fun h0 => hbne (hg.2.2 h0)
      have hc1 := hcb.2.2.2.1 hbne hrem
      refine ⟨hcb.1, ?_, ?_⟩
      · rw [hcb.2.1, hs]
        simp
      · have hr4 := state_rank_le (copy_basic_header_bytes st rem).2
        have hrank := state_rank_HB1 st hs hbne
        unfold loop_measure
        rw [hrank, List.length_drop]
        have := hcb.1
        omega
    next =>
      split at h
      · simp at h
      · cases h
        have hrank1 := state_rank_HE (enter_extended (copy_basic_header_bytes st rem).2) rfl
        by_cases hbn0 : st.m_bytes_needed = 0
        · have hcz : (copy_basic_header_bytes st rem).1 = 0 := by
            rw [hcb.2.2.1 hbn0]
          have hrank := state_rank_HB0 st hs hbn0
          refine ⟨by rw [hcz]; exact Nat.zero_le _, by simp [enter_extended], ?_⟩
          unfold loop_measure
          rw [hrank, hrank1, hcz, List.drop_zero]
          omega
        · have hrem : rem.length ≠ 0 := fun h0 => hbn0 (hg.2.2 h0)
          have hc1 := hcb.2.2.2.1 hbn0 hrem
          have hrank := state_rank_HB1 st hs hbn0
          refine ⟨hcb.1, by simp [enter_extended], ?_⟩
          unfold loop_measure
          rw [hrank, hrank1, List.length_drop]
          have := hcb.1
          omega
  case HEADER_EXTENDED =>
    have hce := copy_extended_facts st rem
    split at h
    next hbn =>
      cases h
      rw [hce.2.2] at hbn
      have hbne : st.m_bytes_needed ≠ 0 := by omega
      have hrem : rem.length ≠ 0 := fun h0 => hbne (hg.2.2 h0)
      have hrank := state_rank_HE st hs
      have hrank1 : state_rank (copy_extended_header_bytes st rem).2 = 3 :=
        state_rank_HE _ (by rw [hce.2.1, hs])
      refine ⟨?_, ?_, ?_⟩
      · rw [hce.1]
        omega
      · rw [hce.2.1, hs]
        simp
      · unfold loop_measure
        rw [hrank, hrank1, hce.1, List.length_drop]
        omega
    next =>
      split at h
      · simp at h
      · cases h
        have hrank := state_rank_HE st hs
        have hrank1 : state_rank (setup_message (copy_extended_header_bytes st rem).2) = 2 :=
          state_rank_APP _ (setup_message_state _)
        refine ⟨?_, ?_, ?_⟩
        · rw [hce.1]
          omega
        · rw [setup_message_state]
          simp
        · unfold loop_measure
          rw [hrank, hrank1, List.length_drop]
          omega
  case EXTENSION =>
    cases h
    have hrank := state_rank_EXT st hs
    have hrank1 : state_rank { st with m_state := PState.APPLICATION } = 2 :=
      state_rank_APP _ rfl
    refine ⟨Nat.zero_le _, by simp, ?_⟩
    unfold loop_measure
    rw [hrank, hrank1, List.drop_zero]
    omega
  case APPLICATION =>
    have hrank := state_rank_APP st hs
    split at h
    next hbt =>
      split at h
      next => simp at h
      next stp cp heq =>
        have hpf := process_payload_facts f st (rem.take (min st.m_bytes_needed rem.length))
        rw [heq] at hpf
        dsimp only at hpf
        have hcp : cp = (rem.take (min st.m_bytes_needed rem.length)).length :=
          hpf.2.1 rfl
        rw [List.length_take] at hcp
        have hcple : cp ≤ rem.length := by omega
        have hcp1 : 1 ≤ cp := by omega
        split at h
        · cases h
          have hrank1 : state_rank st1 = 2 := state_rank_APP _ (by rw [hpf.1, hs])
          refine ⟨hcple, ?_, ?_⟩
          · rw [hpf.1, hs]
            simp
          · unfold loop_measure
            rw [hrank, hrank1, List.length_drop]
            omega
        · split at h
          next => simp at h
          next st2 heq2 =>
            cases h
            have hfin : (fin_or_reset stp).2 = none := by rw [heq2]
            have hr2 : state_rank st1 ≤ 1 := by
              have hx := fin_or_reset_facts stp hfin
              rw [heq2] at hx
              exact hx
            refine ⟨hcple, ?_, ?_⟩
            · have hx := fin_or_reset_not_fatal stp hfin
              rw [heq2] at hx
              exact hx
            · unfold loop_measure
              rw [hrank, List.length_drop]
              omega
    next hbt =>
      split at h
      next => simp at h
      next st2 heq2 =>
        cases h
        have hfin : (fin_or_reset st).2 = none := by rw [heq2]
        have hr2 : state_rank st1 ≤ 1 := by
          have hx := fin_or_reset_facts st hfin
          rw [heq2] at hx
          exact hx
        refine ⟨Nat.zero_le _, ?_, ?_⟩
        · have hx := fin_or_reset_not_fatal st hfin
          rw [heq2] at hx
          exact hx
        · unfold loop_measure
          rw [hrank, List.drop_zero]
          omega
  case READY => simp at h
  case FATAL_ERROR => simp at h

/-- Master invariant of the decode loop: with fuel at least the loop
measure, the loop consumes at most the available bytes, yields control
only having consumed everything, reached READY, or surfaced an error, and
is insensitive to additional fuel (it exits through its own conditions,
not by running out). -/
theorem consume_loop_master (f : List Nat → List Nat) :
    ∀ fuel st rem, st.m_state ≠ PState.FATAL_ERROR → loop_measure st rem ≤ fuel →
    (consume_loop f fuel st rem).consumed ≤ rem.length ∧
    ((consume_loop f fuel st rem).consumed = rem.length ∨
     (consume_loop f fuel st rem).st.m_state = PState.READY ∨
     (consume_loop f fuel st rem).ec ≠ none) ∧
    consume_loop f (fuel + 1) st rem = consume_loop f fuel st rem := by
  intro fuel
  induction fuel using Nat.strong_induction_on with
  | _ fuel ih =>
    intro st rem hnf hm
    match fuel with
    | 0 =>
      have hL : rem.length = 0 ∧ state_rank st = 0 := by
        unfold loop_measure at hm
        omega
      have hready : st.m_state = PState.READY := by
        by_contra hne
        have h2 := hL.2
        unfold state_rank at h2
        cases hs : st.m_state <;> rw [hs] at h2 <;> dsimp only at h2 <;>
          first
            | (exact absurd hs hne)
            | (exact absurd hs hnf)
            | omega
            | (split at h2 <;> omega)
      constructor
      · simp [consume_loop]
      constructor
      · left
        simp [consume_loop, hL.1]
      · have hg : loop_guard st rem := Or.inl hready
        simp only [consume_loop]
        rw [if_pos hg]
    | n + 1 =>
      by_cases hg : loop_guard st rem
      · have h1 : consume_loop f (n + 1) st rem = ⟨0, st, none⟩ := by
          simp only [consume_loop]
          rw [if_pos hg]
        have h2 : consume_loop f (n + 1 + 1) st rem = ⟨0, st, none⟩ := by
          simp only [consume_loop]
          rw [if_pos hg]
        rw [h1, h2]
        refine ⟨Nat.zero_le _, ?_, rfl⟩
        rcases hg with hg | hg | hg
        · right
          left
          exact hg
        · exact absurd hg hnf
        · left
          dsimp only
          omega
      · cases hit : loop_iter f st rem with
        | done out =>
          have h1 : consume_loop f (n + 1) st rem = out := by
            simp only [consume_loop]
            rw [if_neg hg, hit]
          have h2 : consume_loop f (n + 1 + 1) st rem = out := by
            simp only [consume_loop]
            rw [if_neg hg, hit]
          rw [h1, h2]
          have hd := loop_iter_done_facts f st rem out hit
          exact ⟨hd.1, Or.inr (Or.inr hd.2), rfl⟩
        | next c st1 =>
          have hn := loop_iter_next_facts f st rem c st1 hg hit
          have hmn : loop_measure st1 (rem.drop c) ≤ n := by omega
          have hihn := ih n (by omega) st1 (rem.drop c) hn.2.1 hmn
          have h1 : consume_loop f (n + 1) st rem
              = bump c (consume_loop f n st1 (rem.drop c)) := by
            simp only [consume_loop]
            rw [if_neg hg, hit]
          have h2 : consume_loop f (n + 1 + 1) st rem
              = bump c (consume_loop f (n + 1) st1 (rem.drop c)) := by
            simp only [consume_loop]
            rw [if_neg hg, hit]
          refine ⟨?_, ?_, ?_⟩
          · rw [h1]
            have := hihn.1
            rw [List.length_drop] at this
            unfold bump
            simp only
            omega
          · rw [h1]
            rcases hihn.2.1 with hx | hx | hx
            · left
              rw [List.length_drop] at hx
              unfold bump
              simp only
              omega
            · right
              left
              unfold bump
              simp only
              exact hx
            · right
              right
              unfold bump
              simp only
              exact hx
          · rw [h1, h2, hihn.2.2]

/-- Above the loop measure, extra fuel does not change the result of the
decode loop. -/
theorem consume_loop_fuel_add (f : List Nat → List Nat) (st : Hybi13) (rem : List Nat)
    (h : st.m_state ≠ PState.FATAL_ERROR) (base : Nat)
    (hm : loop_measure st rem ≤ base) :
    ∀ k, consume_loop f (base + k) st rem = consume_loop f base st rem := by
  intro k
  induction k with
  | zero => rfl
  | succ k ihk =>
    have hx : base + (k + 1) = (base + k) + 1 := by omega
    rw [hx, (consume_loop_master f (base + k) st rem h (by omega)).2.2]
    exact ihk

/-- C9.  consume processes the bytes it is given and returns: it consumes
at most `len` bytes, yields control only when it has consumed all
available bytes, produced a READY message, or surfaced an error, and its
result is unchanged by any fuel at least `5 * len + 5` — the decode loop
exits through its own conditions after finitely many iterations, never by
exhausting fuel.  (The FATAL_ERROR hypothesis is benign: no code path ever
assigns that state, so it is unreachable.) -/
theorem consume_terminates_and_yields (f : List Nat → List Nat) (st : Hybi13)
    (buf : List Nat) (h : st.m_state ≠ PState.FATAL_ERROR) :
    (consume f st buf).consumed ≤ buf.length ∧
    ((consume f st buf).consumed = buf.length ∨
     (consume f st buf).st.m_state = PState.READY ∨
     (consume f st buf).ec ≠ none) ∧
    (∀ F, 5 * buf.length + 5 ≤ F → consume_loop f F st buf = consume f st buf) := by
  have hm : loop_measure st buf ≤ 5 * buf.length + 5 := by
    have := state_rank_le st
    unfold loop_measure
    omega
  have hmain := consume_loop_master f (5 * buf.length + 5) st buf h hm
  refine ⟨hmain.1, hmain.2.1, ?_⟩
  intro F hF
  have hx : F = (5 * buf.length + 5) + (F - (5 * buf.length + 5)) := by omega
  rw [hx, consume_loop_fuel_add f st buf h (5 * buf.length + 5) hm]
  rfl

/-- C9 witness: the properties instantiated at a concrete decoder and
1-byte input, with the fuel-independence checked at fuel 99. -/
theorem consume_terminates_and_yields_witness :
    (consume id (Hybi13.init true false) [129]).consumed ≤ 1 ∧
    ((consume id (Hybi13.init true false) [129]).consumed = 1 ∨
     (consume id (Hybi13.init true false) [129]).st.m_state = PState.READY ∨
     (consume id (Hybi13.init true false) [129]).ec ≠ none) ∧
    consume_loop id 99 (Hybi13.init true false) [129]
      = consume id (Hybi13.init true false) [129] := by
  have h := consume_terminates_and_yields id (Hybi13.init true false) [129] (by decide)
  exact ⟨h.1, h.2.1, h.2.2 99 (by decide)⟩

/-- One HEADER_BASIC iteration with both header bytes available: read
them, then branch on basic-header validation. -/
theorem loop_iter_hb2 (f : List Nat → List Nat) (st : Hybi13) (x y : Nat)
    (rest : List Nat) (hs : st.m_state = PState.HEADER_BASIC)
    (hbn : st.m_bytes_needed = 2) :
    loop_iter f st (x :: y :: rest) =
      (match validate_incoming_basic_header x y st.m_server st.m_data_msg.msg.isNone
          st.m_pmc_enabled with
       | some e =>
         LoopStep.done ⟨2, { st with b0 := x, b1 := y, m_bytes_needed := 0 }, some e⟩
       | none =>
         LoopStep.next 2
           (enter_extended { st with b0 := x, b1 := y, m_bytes_needed := 0 })) := by
  unfold loop_iter
  rw [hs]
  dsimp only
  unfold copy_basic_header_bytes
  rw [hbn]
  simp [List.getD, hs]

/-- One HEADER_EXTENDED iteration with exactly the needed bytes at the
head of the input: read them, then branch on extended-header
validation. -/
theorem loop_iter_he_full (f : List Nat → List Nat) (st : Hybi13)
    (ext tail : List Nat) (hs : st.m_state = PState.HEADER_EXTENDED)
    (hbn : st.m_bytes_needed = ext.length) :
    loop_iter f st (ext ++ tail) =
      (match validate_incoming_extended_header st.b1 (st.m_extended ++ ext) with
       | some e =>
         LoopStep.done ⟨ext.length,
           { st with m_extended := st.m_extended ++ ext,
                     m_cursor := st.m_cursor + ext.length, m_bytes_needed := 0 },
           some e⟩
       | none =>
         LoopStep.next ext.length
           (setup_message
             { st with m_extended := st.m_extended ++ ext,
                       m_cursor := st.m_cursor + ext.length,
                       m_bytes_needed := 0 })) := by
  have hmin : min st.m_bytes_needed (ext ++ tail).length = ext.length := by
    rw [hbn, List.length_append]
    omega
  have htake : (ext ++ tail).take ext.length = ext := List.take_left ext tail
  unfold loop_iter
  rw [hs]
  dsimp only
  unfold copy_extended_header_bytes
  dsimp only
  rw [hmin, htake, hbn]
  simp [hs]

/-- The extended-header validator rejects non-minimally encoded lengths:
a 16-bit extension encoding at most 125 or a 64-bit extension encoding at
most 65535. -/
theorem validate_ext_non_minimal (b1 : Nat) (ext : List Nat)
    (h : (get_basic_size b1 = 126 ∧ get_payload_size b1 ext ≤ 125) ∨
         (get_basic_size b1 = 127 ∧ get_payload_size b1 ext ≤ 65535)) :
    validate_incoming_extended_header b1 ext = some PErr.non_minimal_encoding := by
  unfold validate_incoming_extended_header
  rcases h with ⟨h1, h2⟩ | ⟨h1, h2⟩
  · rw [if_pos ⟨h1, by unfold payload_size_basic; omega⟩]
  · rw [if_neg, if_pos ⟨h1, by unfold payload_size_extended; omega⟩]
    intro hx
    rw [hx.1] at h1
    omega

/-- One-step unfolding of the fuelled loop at a successor fuel value. -/
theorem consume_loop_succ (f : List Nat → List Nat) (F : Nat) (st : Hybi13)
    (rem : List Nat) :
    consume_loop f (F + 1) st rem =
      if loop_guard st rem then { consumed := 0, st := st, ec := none }
      else
        match loop_iter f st rem with
        | LoopStep.done out => out
        | LoopStep.next c st1 => bump c (consume_loop f F st1 (rem.drop c)) :=
  rfl

/-- From a HEADER_EXTENDED state whose pending byte count matches `ext`
and whose extended buffer is empty, a failing extended-header validation
makes the loop consume exactly the extension bytes, surface the error, and
stay in HEADER_EXTENDED. -/
theorem consume_loop_he_reject (f : List Nat → List Nat) (F : Nat) (st2 : Hybi13)
    (ext tail : List Nat) (e : PErr)
    (hs : st2.m_state = PState.HEADER_EXTENDED)
    (hbn : st2.m_bytes_needed = ext.length)
    (hext : st2.m_extended = [])
    (hvv : validate_incoming_extended_header st2.b1 ext = some e) :
    (consume_loop f (F + 1) st2 (ext ++ tail)).ec = some e ∧
    (consume_loop f (F + 1) st2 (ext ++ tail)).consumed = ext.length ∧
    (consume_loop f (F + 1) st2 (ext ++ tail)).st.m_state = PState.HEADER_EXTENDED := by
  have hg2 : ¬ loop_guard st2 (ext ++ tail) := by
    simp only [loop_guard, hs, not_or, List.length_append]
    refine ⟨by simp, by simp, ?_⟩
    simp only [not_and, ne_eq, not_not]
    intro hz
    rw [hbn]
    omega
  have hit2 := loop_iter_he_full f st2 ext tail hs hbn
  rw [hext] at hit2
  simp only [List.nil_append] at hit2
  rw [hvv] at hit2
  dsimp only at hit2
  rw [consume_loop_succ, if_neg hg2, hit2]
  exact ⟨rfl, rfl, hs⟩

/-- C4.  A frame whose length code is 126 with a 16-bit extension encoding
at most 125, or whose length code is 127 with a 64-bit extension encoding
at most 65535, is rejected with non_minimal_encoding as soon as the
extended header completes, and the decoder never enters APPLICATION for
that frame: consume stops in HEADER_EXTENDED having consumed exactly the
header bytes.  (The basic header is assumed to pass validation — otherwise
the frame is rejected before the extended header is read at all.) -/
theorem non_minimal_encoding_rejected (f : List Nat → List Nat) (srv pmc : Bool)
    (b0v b1v : Nat) (ext tail : List Nat)
    (hv : validate_incoming_basic_header b0v b1v srv true pmc = none)
    (hl : ext.length = get_header_len b1v - 2)
    (hm : (get_basic_size b1v = 126 ∧ get_payload_size b1v ext ≤ 125) ∨
          (get_basic_size b1v = 127 ∧ get_payload_size b1v ext ≤ 65535)) :
    validate_incoming_extended_header b1v ext = some PErr.non_minimal_encoding ∧
    (consume f (Hybi13.init srv pmc) (b0v :: b1v :: (ext ++ tail))).ec
      = some PErr.non_minimal_encoding ∧
    (consume f (Hybi13.init srv pmc) (b0v :: b1v :: (ext ++ tail))).consumed
      = 2 + ext.length ∧
    (consume f (Hybi13.init srv pmc) (b0v :: b1v :: (ext ++ tail))).st.m_state
      = PState.HEADER_EXTENDED := by
  have hvx := validate_ext_non_minimal b1v ext hm
  have hval : validate_incoming_basic_header b0v b1v (Hybi13.init srv pmc).m_server
      (Hybi13.init srv pmc).m_data_msg.msg.isNone
      (Hybi13.init srv pmc).m_pmc_enabled = none := hv
  have hit1 := loop_iter_hb2 f (Hybi13.init srv pmc) b0v b1v (ext ++ tail) rfl rfl
  rw [hval] at hit1
  dsimp only at hit1
  have hg1 : ¬ loop_guard (Hybi13.init srv pmc) (b0v :: b1v :: (ext ++ tail)) := by
    simp [loop_guard, Hybi13.init, reset_headers]
  have hf1 : 5 * (b0v :: b1v :: (ext ++ tail)).length + 5
      = (5 * (b0v :: b1v :: (ext ++ tail)).length + 4) + 1 := by omega
  have hdrop : List.drop 2 (b0v :: b1v :: (ext ++ tail)) = ext ++ tail := rfl
  have e1 : consume f (Hybi13.init srv pmc) (b0v :: b1v :: (ext ++ tail)) = bump 2 (consume_loop f ((5 * (b0v :: b1v :: (ext ++ tail)).length + 3) + 1) (enter_extended { Hybi13.init srv pmc with b0 := b0v, b1 := b1v, m_bytes_needed := 0 }) (ext ++ tail)) := by
    unfold consume
    rw [hf1, consume_loop_succ, if_neg hg1, hit1]
    dsimp only
    rw [hdrop]
  have hrej := consume_loop_he_reject f (5 * (b0v :: b1v :: (ext ++ tail)).length + 3) (enter_extended { Hybi13.init srv pmc with b0 := b0v, b1 := b1v, m_bytes_needed := 0 }) ext tail PErr.non_minimal_encoding rfl hl.symm rfl hvx
  refine ⟨hvx, ?_, ?_, ?_⟩
  · rw [e1]
    exact hrej.1
  · rw [e1]
    simp only [bump]
    rw [hrej.2.1]
  · rw [e1]
    exact hrej.2.2

/-- C4 witness: a client-role decoder fed the binary frame header
`82 7E 00 05` (length code 126 encoding 5) consumes the 4 header bytes,
surfaces non_minimal_encoding, and stays in HEADER_EXTENDED. -/
theorem non_minimal_encoding_rejected_witness :
    (consume id (Hybi13.init false false) (130 :: 126 :: ([0, 5] ++ []))).ec
      = some PErr.non_minimal_encoding ∧
    (consume id (Hybi13.init false false) (130 :: 126 :: ([0, 5] ++ []))).consumed
      = 2 + 2 ∧
    (consume id (Hybi13.init false false) (130 :: 126 :: ([0, 5] ++ []))).st.m_state
      = PState.HEADER_EXTENDED := by
  have h := non_minimal_encoding_rejected id false false 130 126 [0, 5] []
    (by decide) (by decide) (Or.inl (by decide))
  exact ⟨h.2.1, h.2.2.1, h.2.2.2⟩

/-- C1.  The claim says every decode-path validation failure drives the
processor into FATAL_ERROR, making `get_error()` true.  The code sets the
error code and breaks out of the loop but no code path ever assigns
FATAL_ERROR, so `get_error()` stays false: a server-role decoder fed the
unmasked TEXT header `81 00` surfaces `masking_required`, yet the state
remains HEADER_BASIC and `get_error` is false. -/
theorem consume_error_leaves_state_not_fatal :
    (consume id (Hybi13.init true false) [129, 0]).ec = some PErr.masking_required ∧
    (consume id (Hybi13.init true false) [129, 0]).consumed = 2 ∧
    get_error (consume id (Hybi13.init true false) [129, 0]).st = false ∧
    (consume id (Hybi13.init true false) [129, 0]).st.m_state = PState.HEADER_BASIC := by
  decide

/-- C2.  In the compressed path, `offset` is reassigned to the LENGTH of
the newly decompressed output (`out.size() - offset`) and then used as a
START INDEX into the message buffer, so the UTF-8 validator is not fed the
newly appended region.  Concretely (client role, permessage-compress
negotiated, identity decompressor): the compressed TEXT frame
`C1 03 C3 A9 61` carries the valid UTF-8 payload `C3 A9 61`; delivered as
4 bytes then 1 byte, the second call appends `61` but feeds `A9 61` to the
validator (previously buffered bytes) and fails with invalid_utf8. -/
theorem compressed_text_validator_misfeed :
    utf8_decode Utf8S.ok0 [195, 169, 97] ≠ Utf8S.bad ∧
    utf8_complete (utf8_decode Utf8S.ok0 [195, 169, 97]) = true ∧
    (consume id (Hybi13.init false true) [193, 3, 195, 169]).ec = none ∧
    (consume id (Hybi13.init false true) [193, 3, 195, 169]).consumed = 4 ∧
    (consume id (consume id (Hybi13.init false true) [193, 3, 195, 169]).st [97]).ec
      = some PErr.invalid_utf8 ∧
    (consume id (consume id (Hybi13.init false true) [193, 3, 195, 169]).st [97]).consumed
      = 0 := by
  decide

/-- C3.  Chunking invariance fails on the compressed path because of the
validator offset defect: the single compressed TEXT frame `C1 03 C3 A9 61`
(valid UTF-8 payload, identity decompressor, client role) decodes to a
READY message consuming all 5 bytes when fed whole, but fed as the chunks
`C1 03 C3 A9` then `61` the second call fails with invalid_utf8 and the
totals differ. -/
theorem chunking_invariance_violated_compressed :
    (consume id (Hybi13.init false true) [193, 3, 195, 169, 97]).ec = none ∧
    (consume id (Hybi13.init false true) [193, 3, 195, 169, 97]).consumed = 5 ∧
    (consume id (Hybi13.init false true) [193, 3, 195, 169, 97]).st.m_state = PState.READY ∧
    (consume id (consume id (Hybi13.init false true) [193, 3, 195, 169]).st [97]).st.m_state
      ≠ PState.READY ∧
    (consume id (Hybi13.init false true) [193, 3, 195, 169]).consumed +
      (consume id (consume id (Hybi13.init false true) [193, 3, 195, 169]).st [97]).consumed
      ≠ 5 := by
  decide

/-- C5 counterexample.  The claim as stated says a server-role decoder
rejects EVERY frame with MASK=0 with the `masking_required` error; but the
masking-direction check is the last basic-header check, so the unmasked
frame `83 00` (reserved opcode 3) is rejected with `invalid_opcode`
instead. -/
theorem masking_error_not_first :
    get_masked 0 = false ∧
    validate_incoming_basic_header 131 0 true true false = some PErr.invalid_opcode ∧
    validate_incoming_basic_header 131 0 true true false ≠ some PErr.masking_required := by
  decide

/-- C6 counterexample.  The claim as stated says a control frame with
FIN=0 is rejected with `fragmented_control`; but the control-size check
comes first, so the CLOSE frame header `08 7E` (FIN=0, length code 126) is
rejected with `control_too_big` instead. -/
theorem fragmented_control_error_not_first :
    get_opcode 8 = 8 ∧ get_fin 8 = false ∧
    validate_incoming_basic_header 8 126 true true false = some PErr.control_too_big ∧
    validate_incoming_basic_header 8 126 true true false ≠ some PErr.fragmented_control := by
  decide

/-- C8.  validate_handshake returns an error exactly when the method is
not GET, the version is not HTTP/1.1, or the key header is absent, and it
returns the first violated condition in source order. -/
theorem validate_handshake_spec (r : Request) :
    (validate_handshake r = none ↔
      r.method = "GET" ∧ r.version = "HTTP/1.1" ∧ r.get_header "Sec-WebSocket-Key" ≠ "") ∧
    (r.method ≠ "GET" → validate_handshake r = some PErr.invalid_http_method) ∧
    (r.method = "GET" → r.version ≠ "HTTP/1.1" →
      validate_handshake r = some PErr.invalid_http_version) ∧
    (r.method = "GET" → r.version = "HTTP/1.1" → r.get_header "Sec-WebSocket-Key" = "" →
      validate_handshake r = some PErr.missing_required_header) := by
  unfold validate_handshake
  constructor
  · constructor
    · intro h
      by_cases hm : r.method = "GET" <;> by_cases hv : r.version = "HTTP/1.1" <;>
        by_cases hk : r.get_header "Sec-WebSocket-Key" = "" <;>
        simp [hm, hv, hk] at h ⊢
    · rintro ⟨hm, hv, hk⟩
      simp [hm, hv, hk]
  refine ⟨fun hm => by simp [hm], fun hm hv => by simp [hm, hv],
          fun hm hv hk => by simp [hm, hv, hk]⟩

/-- C8 witness: a concrete valid request and a concrete violating one. -/
theorem validate_handshake_spec_witness :
    validate_handshake ⟨"GET", "HTTP/1.1", [("Sec-WebSocket-Key", "k")]⟩ = none ∧
    validate_handshake ⟨"POST", "HTTP/1.1", []⟩ = some PErr.invalid_http_method := by
  constructor
  · exact (validate_handshake_spec ⟨"GET", "HTTP/1.1", [("Sec-WebSocket-Key", "k")]⟩).1.2
      (by constructor <;> [rfl; constructor <;> [rfl; decide]])
  · exact (validate_handshake_spec ⟨"POST", "HTTP/1.1", []⟩).2.1 (by decide)

/-- Indexing anywhere into the all-zero masking key yields zero. -/
theorem getD_zero_key (n : Nat) : ([0, 0, 0, 0] : List Nat).getD n 0 = 0 := by
  match n with
  | 0 => rfl
  | 1 => rfl
  | 2 => rfl
  | 3 => rfl
  | m + 4 => rfl

/-- Masking with the all-zero key (the fixed key the source generates) is
the identity on the byte sequence. -/
theorem zero_mask_id (ph : Nat) (bs : List Nat) :
    (word_mask_circ ⟨[0, 0, 0, 0], ph⟩ bs).1 = bs := by
  unfold word_mask_circ
  simp only [getD_zero_key, Nat.xor_zero]
  exact List.enum_map_snd bs

/-- C7.  prepare_close validates in source order — reserved code, invalid
code other than the no-status sentinel, reason paired with no-status,
reason longer than the control limit minus 2 — and otherwise succeeds with
a payload of the 2-byte network-order code followed by the reason bytes,
or an empty payload for the no-status sentinel.  The close-status
predicates are spec-modelled parameters (close.hpp is outside this
tree). -/
theorem prepare_close_spec (rP iP : Nat → Bool) (ns : Nat) (srv : Bool) (code : Nat)
    (reason : List Nat) :
    (rP code = true →
      prepare_close rP iP ns srv true code reason = (some PErr.reserved_close_code, none)) ∧
    (rP code = false → iP code = true → code ≠ ns →
      prepare_close rP iP ns srv true code reason = (some PErr.invalid_close_code, none)) ∧
    (rP code = false → code = ns → reason ≠ [] →
      prepare_close rP iP ns srv true code reason = (some PErr.reason_requires_code, none)) ∧
    (rP code = false → (iP code = false ∨ code = ns) → ¬(code = ns ∧ reason ≠ []) →
      123 < reason.length →
      prepare_close rP iP ns srv true code reason = (some PErr.control_too_big, none)) ∧
    (rP code = false → (iP code = false ∨ code = ns) → ¬(code = ns ∧ reason ≠ []) →
      reason.length ≤ 123 →
      (prepare_close rP iP ns srv true code reason).1 = none ∧
      Option.map PreparedFrame.payload (prepare_close rP iP ns srv true code reason).2 =
        some (if code ≠ ns then [code / 256 % 256, code % 256] ++ reason else [])) := by
  refine ⟨fun h1 => ?_, fun h1 h2 h3 => ?_, fun h1 h2 h3 => ?_,
          fun h1 h2 h3 h4 => ?_, fun h1 h2 h3 h4 => ?_⟩
  · simp [prepare_close, h1]
  · simp [prepare_close, h1, h2, h3]
  · subst h2
    have hr : 0 < reason.length := List.length_pos.mpr h3
    simp [prepare_close, h1, hr]
  · rcases Decidable.em (code = ns) with hc | hc
    · have hre : reason = [] := by
        by_contra hne
        exact h3 ⟨hc, hne⟩
      subst hre
      simp at h4
    · have h2' : iP code = false := by
        rcases h2 with h2 | h2
        · exact h2
        · exact absurd h2 hc
      have hx : payload_size_basic - 2 < reason.length := by
        simp only [payload_size_basic]
        omega
      simp [prepare_close, h1, h2', hc, hx]
  · rcases Decidable.em (code = ns) with hc | hc
    · have hre : reason = [] := by
        by_contra hne
        exact h3 ⟨hc, hne⟩
      subst hre
      subst hc
      have hx : ¬ (payload_size_basic - 2 < ([] : List Nat).length) := by
        simp [payload_size_basic]
      have hy : ¬ (payload_size_basic < ([] : List Nat).length) := by
        simp [payload_size_basic]
      simp [prepare_close, prepare_control, h1, hx, hy, opcode_is_control,
            prepare_masking_key, zero_mask_id]
    · have h2' : iP code = false := by
        rcases h2 with h2 | h2
        · exact h2
        · exact absurd h2 hc
      have hx : ¬ (payload_size_basic - 2 < reason.length) := by
        simp only [payload_size_basic]
        omega
      have hy : ¬ (payload_size_basic < reason.length + 1 + 1) := by
        simp only [payload_size_basic]
        omega
      simp [prepare_close, prepare_control, h1, h2', hc, hx, hy, opcode_is_control,
            prepare_masking_key, zero_mask_id]

/-- C7 witness: with no code reserved or invalid and sentinel 1005, closing
with code 1000 and reason "hi" succeeds and lays out the payload as the
big-endian code followed by the reason bytes. -/
theorem prepare_close_spec_witness :
    (prepare_close (fun _ => false) (fun _ => false) 1005 true true 1000 [104, 105]).1
      = none ∧
    Option.map PreparedFrame.payload
      (prepare_close (fun _ => false) (fun _ => false) 1005 true true 1000 [104, 105]).2
      = some [3, 232, 104, 105] := by
  have h := (prepare_close_spec (fun _ => false) (fun _ => false) 1005 true 1000
    [104, 105]).2.2.2.2 rfl (Or.inl rfl) (by simp) (by simp)
  refine ⟨h.1, ?_⟩
  rw [h.2]
  decide

/-- C10.  get_message returns the null message and leaves the processor
untouched whenever the decoder is not READY; when READY it detaches the
current message, clears the metadata slot matching the message's opcode,
and re-arms the decoder (reset_headers: HEADER_BASIC, 2 bytes needed,
cleared header bytes). -/
theorem get_message_spec (st : Hybi13) :
    (ready st = false → get_message st = (none, st)) ∧
    (∀ m, ready st = true → st.m_current = Sel.scontrol → st.m_control_msg.msg = some m →
      opcode_is_control m.opcode = true →
      get_message st = (some m,
        reset_headers { st with
          m_control_msg := ⟨none, st.m_control_msg.prepared_key,
                            st.m_control_msg.validator⟩ })) ∧
    (∀ m, ready st = true → st.m_current = Sel.sdata → st.m_data_msg.msg = some m →
      opcode_is_control m.opcode = false →
      get_message st = (some m,
        reset_headers { st with
          m_data_msg := ⟨none, st.m_data_msg.prepared_key, st.m_data_msg.validator⟩ })) := by
  refine ⟨fun h => ?_, fun m h hc hm hop => ?_, fun m h hc hm hop => ?_⟩
  · simp [get_message, h]
  · simp [get_message, h, Hybi13.current_md, Hybi13.set_current_md, hc, hm, hop]
  · simp [get_message, h, Hybi13.current_md, Hybi13.set_current_md, hc, hm, hop]

/-- C10 witness: a concrete non-READY state is left untouched, and a
concrete READY state holding a PONG control message hands the message out
and re-arms at HEADER_BASIC. -/
theorem get_message_spec_witness :
    get_message (Hybi13.init true false) = (none, Hybi13.init true false) ∧
    (get_message { (Hybi13.init true false) with
                   m_state := PState.READY,
                   m_current := Sel.scontrol,
                   m_control_msg := ⟨some ⟨10, []⟩, ⟨[0, 0, 0, 0], 0⟩, Utf8S.ok0⟩ }).1
      = some ⟨10, []⟩ ∧
    (get_message { (Hybi13.init true false) with
                   m_state := PState.READY,
                   m_current := Sel.scontrol,
                   m_control_msg := ⟨some ⟨10, []⟩, ⟨[0, 0, 0, 0], 0⟩, Utf8S.ok0⟩ }).2.m_state
      = PState.HEADER_BASIC := by
  refine ⟨(get_message_spec (Hybi13.init true false)).1 (by decide), ?_, ?_⟩
  · rw [(get_message_spec _).2.1 (⟨10, []⟩ : Message) (by decide) rfl rfl (by decide)]
  · rw [(get_message_spec _).2.1 (⟨10, []⟩ : Message) (by decide) rfl rfl (by decide)]
    rfl

/-- From a freshly armed decoder, a basic header that fails validation is
rejected after exactly the two basic-header bytes: no further input is
read, the state and message slots are untouched, and the error is
surfaced. -/
theorem consume_hb_reject (f : List Nat → List Nat) (srv pmc : Bool)
    (b0v b1v : Nat) (rest : List Nat) (e : PErr)
    (hv : validate_incoming_basic_header b0v b1v srv true pmc = some e) :
    consume f (Hybi13.init srv pmc) (b0v :: b1v :: rest) =
      ⟨2, { Hybi13.init srv pmc with b0 := b0v, b1 := b1v, m_bytes_needed := 0 },
       some e⟩ := by
  have hval : validate_incoming_basic_header b0v b1v (Hybi13.init srv pmc).m_server
      (Hybi13.init srv pmc).m_data_msg.msg.isNone
      (Hybi13.init srv pmc).m_pmc_enabled = some e := hv
  have hit1 := loop_iter_hb2 f (Hybi13.init srv pmc) b0v b1v rest rfl rfl
  rw [hval] at hit1
  dsimp only at hit1
  have hg1 : ¬ loop_guard (Hybi13.init srv pmc) (b0v :: b1v :: rest) := by
    simp [loop_guard, Hybi13.init, reset_headers]
  have hf1 : 5 * (b0v :: b1v :: rest).length + 5
      = (5 * (b0v :: b1v :: rest).length + 4) + 1 := by omega
  unfold consume
  rw [hf1, consume_loop_succ, if_neg hg1, hit1]

/-- C5 (amended).  When a frame's basic header passes every earlier check
(control size, RSV bits, opcode legality, control fragmentation,
continuation sequencing), the masking direction is enforced: a server-role
decoder rejects an unmasked frame with masking_required and a client-role
decoder rejects a masked frame with masking_forbidden, in both cases
during basic-header validation — consume stops after the two header bytes
with the error, before any payload byte is processed. -/
theorem masking_direction_enforced (f : List Nat → List Nat) (pmc : Bool)
    (b0v b1v : Nat) (rest : List Nat)
    (h1 : ¬ (opcode_is_control (get_opcode b0v) = true ∧
             payload_size_basic < get_basic_size b1v))
    (h2 : ¬ (get_rsv1 b0v = true ∧
             (pmc = false ∨ opcode_is_control (get_opcode b0v) = true)))
    (h3 : get_rsv2 b0v = false)
    (h4 : get_rsv3 b0v = false)
    (h5 : opcode_reserved (get_opcode b0v) = false)
    (h6 : opcode_invalid (get_opcode b0v) = false)
    (h7 : ¬ (opcode_is_control (get_opcode b0v) = true ∧ get_fin b0v = false))
    (h8 : get_opcode b0v ≠ 0) :
    (get_masked b1v = false →
      validate_incoming_basic_header b0v b1v true true pmc
        = some PErr.masking_required ∧
      consume f (Hybi13.init true pmc) (b0v :: b1v :: rest) =
        ⟨2, { Hybi13.init true pmc with b0 := b0v, b1 := b1v, m_bytes_needed := 0 },
         some PErr.masking_required⟩) ∧
    (get_masked b1v = true →
      validate_incoming_basic_header b0v b1v false true pmc
        = some PErr.masking_forbidden ∧
      consume f (Hybi13.init false pmc) (b0v :: b1v :: rest) =
        ⟨2, { Hybi13.init false pmc with b0 := b0v, b1 := b1v, m_bytes_needed := 0 },
         some PErr.masking_forbidden⟩) := by
  have hA1 : ¬ ((opcode_is_control (get_opcode b0v) &&
      decide (payload_size_basic < get_basic_size b1v)) = true) := by
    simp only [Bool.and_eq_true, decide_eq_true_eq]
    exact h1
  have hA2 : ¬ ((get_rsv1 b0v &&
      (!pmc || opcode_is_control (get_opcode b0v))) = true) := by
    simp only [Bool.and_eq_true, Bool.or_eq_true, Bool.not_eq_true']
    exact h2
  have hA3 : ¬ ((get_rsv2 b0v || get_rsv3 b0v) = true) := by
    simp [h3, h4]
  have hA4 : ¬ (opcode_reserved (get_opcode b0v) = true) := by
    simp [h5]
  have hA5 : ¬ (opcode_invalid (get_opcode b0v) = true) := by
    simp [h6]
  have hA6 : ¬ ((opcode_is_control (get_opcode b0v) && !get_fin b0v) = true) := by
    simp only [Bool.and_eq_true, Bool.not_eq_true']
    exact h7
  have hA7 : ¬ ((true && decide (get_opcode b0v = 0)) = true) := by
    simp [h8]
  have hA8 : ¬ ((!true && !opcode_is_control (get_opcode b0v) &&
      decide (get_opcode b0v ≠ 0)) = true) := by
    simp
  constructor
  · intro hmask
    have hval : validate_incoming_basic_header b0v b1v true true pmc
        = some PErr.masking_required := by
      unfold validate_incoming_basic_header
      dsimp only
      rw [if_neg hA1, if_neg hA2, if_neg hA3, if_neg hA4, if_neg hA5, if_neg hA6,
        if_neg hA7, if_neg hA8]
      simp [hmask]
    exact ⟨hval, consume_hb_reject f true pmc b0v b1v rest _ hval⟩
  · intro hmask
    have hval : validate_incoming_basic_header b0v b1v false true pmc
        = some PErr.masking_forbidden := by
      unfold validate_incoming_basic_header
      dsimp only
      rw [if_neg hA1, if_neg hA2, if_neg hA3, if_neg hA4, if_neg hA5, if_neg hA6,
        if_neg hA7, if_neg hA8]
      simp [hmask]
    exact ⟨hval, consume_hb_reject f false pmc b0v b1v rest _ hval⟩

/-- C5 witness: the unmasked FIN binary header `82 05` is rejected by a
server-role decoder with masking_required after its two bytes, and the
masked header `82 85` is rejected by a client-role decoder with
masking_forbidden. -/
theorem masking_direction_enforced_witness :
    validate_incoming_basic_header 130 5 true true false
      = some PErr.masking_required ∧
    (consume id (Hybi13.init true false) (130 :: 5 :: [])).ec
      = some PErr.masking_required ∧
    validate_incoming_basic_header 130 133 false true false
      = some PErr.masking_forbidden := by
  have ha := (masking_direction_enforced id false 130 5 [] (by decide) (by decide)
    (by decide) (by decide) (by decide) (by decide) (by decide) (by decide)).1
    (by decide)
  have hb := (masking_direction_enforced id false 130 133 [] (by decide) (by decide)
    (by decide) (by decide) (by decide) (by decide) (by decide) (by decide)).2
    (by decide)
  exact ⟨ha.1, by rw [ha.2], hb.1⟩

/-- C6 (amended).  For a control opcode (CLOSE, PING, PONG): a 7-bit
length code above 125 is rejected with control_too_big unconditionally
(that check is first, so control frames never reach extended-length
handling — consume stops after the two header bytes); FIN=0 yields
fragmented_control precisely when the length code is at most 125 and the
RSV bits are clear, since the size and RSV checks take precedence. -/
theorem control_frame_checks (f : List Nat → List Nat) (srv pmc : Bool)
    (b0v b1v : Nat) (rest : List Nat)
    (hop : get_opcode b0v = 8 ∨ get_opcode b0v = 9 ∨ get_opcode b0v = 10) :
    (∀ nm : Bool, payload_size_basic < get_basic_size b1v →
      validate_incoming_basic_header b0v b1v srv nm pmc
        = some PErr.control_too_big) ∧
    (∀ nm : Bool, get_fin b0v = false → get_basic_size b1v ≤ payload_size_basic →
      get_rsv1 b0v = false → get_rsv2 b0v = false → get_rsv3 b0v = false →
      validate_incoming_basic_header b0v b1v srv nm pmc
        = some PErr.fragmented_control) ∧
    (payload_size_basic < get_basic_size b1v →
      consume f (Hybi13.init srv pmc) (b0v :: b1v :: rest) =
        ⟨2, { Hybi13.init srv pmc with b0 := b0v, b1 := b1v, m_bytes_needed := 0 },
         some PErr.control_too_big⟩) := by
  have hctrl : opcode_is_control (get_opcode b0v) = true := by
    rcases hop with h | h | h <;> rw [h] <;> decide
  have htoo : ∀ nm : Bool, payload_size_basic < get_basic_size b1v →
      validate_incoming_basic_header b0v b1v srv nm pmc
        = some PErr.control_too_big := by
    intro nm hbig
    have hc : (opcode_is_control (get_opcode b0v) &&
        decide (payload_size_basic < get_basic_size b1v)) = true := by
      simp [hctrl, hbig]
    unfold validate_incoming_basic_header
    dsimp only
    rw [if_pos hc]
  refine ⟨htoo, ?_, ?_⟩
  · intro nm hfin hsize hr1 hr2 hr3
    have hresv : opcode_reserved (get_opcode b0v) = false := by
      rcases hop with h | h | h <;> rw [h] <;> decide
    have hinv : opcode_invalid (get_opcode b0v) = false := by
      rcases hop with h | h | h <;> rw [h] <;> decide
    have hB1 : ¬ ((opcode_is_control (get_opcode b0v) &&
        decide (payload_size_basic < get_basic_size b1v)) = true) := by
      simp [not_lt.mpr hsize]
    have hB2 : ¬ ((get_rsv1 b0v &&
        (!pmc || opcode_is_control (get_opcode b0v))) = true) := by
      simp [hr1]
    have hB3 : ¬ ((get_rsv2 b0v || get_rsv3 b0v) = true) := by
      simp [hr2, hr3]
    have hB4 : ¬ (opcode_reserved (get_opcode b0v) = true) := by
      simp [hresv]
    have hB5 : ¬ (opcode_invalid (get_opcode b0v) = true) := by
      simp [hinv]
    have hB6 : (opcode_is_control (get_opcode b0v) && !get_fin b0v) = true := by
      simp [hctrl, hfin]
    unfold validate_incoming_basic_header
    dsimp only
    rw [if_neg hB1, if_neg hB2, if_neg hB3, if_neg hB4, if_neg hB5, if_pos hB6]
  · intro hbig
    exact consume_hb_reject f srv pmc b0v b1v rest _ (htoo true hbig)

/-- C6 witness: the unfragmented CLOSE header `88 7E` (length code 126) is
rejected with control_too_big after its two bytes, and the fragmented
CLOSE header `08 00` is rejected with fragmented_control. -/
theorem control_frame_checks_witness :
    validate_incoming_basic_header 136 126 true true false
      = some PErr.control_too_big ∧
    validate_incoming_basic_header 8 0 true true false
      = some PErr.fragmented_control ∧
    (consume id (Hybi13.init true false) (136 :: 126 :: [])).ec
      = some PErr.control_too_big := by
  refine ⟨(control_frame_checks id true false 136 126 [] (by decide)).1 true
    (by decide), ?_, ?_⟩
  · exact (control_frame_checks id true false 8 0 [] (by decide)).2.1 true
      (by decide) (by decide) (by decide) (by decide) (by decide)
  · rw [(control_frame_checks id true false 136 126 [] (by decide)).2.2 (by decide)]

end WsHybi13
